import Mathlib

/-!
Verification of the pyalgotrade bar / barfeed core: a shallow embedding of
`pyalgotrade/bar.py` and `pyalgotrade/barfeed/__init__.py` together with the
pieces of the surrounding framework those modules call into.

Python floats are embedded as rationals, datetimes as integers, Python dicts
(which preserve insertion order and update-in-place) as association lists,
and raising an exception as returning `Except.error`.
-/

/-- Modelled from the spec: `pyalgotrade/instrument.py` is not among the
source files; the spec describes an Instrument as an immutable identifier
`(quoteSymbol, priceCurrency)` with equality by value. -/
structure Instrument where
  quoteSymbol : String
  priceCurrency : String
deriving DecidableEq, Repr

/-- Modelled from the spec: `build_instrument` normalizes its argument to an
`Instrument`; on something that is already an `Instrument` it returns it
unchanged (spec: constructible from a canonical string, equality by value).
The embedding only ever passes it already-built instruments. -/
def build_instrument (i : Instrument) : Instrument := i

/-- Datetimes: only ordering and equality matter to the embedded code. -/
abbrev DateTime := Int

namespace Frequency

/-- `Frequency.TRADE` (bar.py line 42). -/
def TRADE : Int := -1

/-- `Frequency.SECOND` (bar.py line 43). -/
def SECOND : Int := 1

/-- `Frequency.MINUTE` (bar.py line 44). -/
def MINUTE : Int := 60

/-- `Frequency.HOUR` (bar.py line 45). -/
def HOUR : Int := 60 * 60

/-- `Frequency.DAY` (bar.py line 46). -/
def DAY : Int := 24 * 60 * 60

/-- `Frequency.WEEK` (bar.py line 47). -/
def WEEK : Int := 24 * 60 * 60 * 7

/-- `Frequency.MONTH` (bar.py line 48). -/
def MONTH : Int := 24 * 60 * 60 * 31

end Frequency

/-- Whether an `Except` computation succeeded (Python: no exception raised). -/
def isOkE {ε α : Type} : Except ε α → Bool
  | .ok _ => true
  | .error _ => false

/-- The fields of `BasicBar` (`__slots__`, bar.py lines 131-143). `extra`
columns are omitted: no embedded operation reads them. -/
structure BasicBar where
  instrument : Instrument
  dateTime : DateTime
  open_ : ℚ
  close : ℚ
  high : ℚ
  low : ℚ
  volume : ℚ
  adjClose : Option ℚ
  frequency : Int
  useAdjustedValue : Bool
deriving DecidableEq, Repr

/-- `BasicBar.__init__` (bar.py lines 145-169): validates the OHLC ordering,
raising on the first violated check, then stores the fields verbatim with the
adjusted-value toggle cleared. -/
def BasicBar.init (instrument : Instrument) (dateTime : DateTime)
    (open_ high low close volume : ℚ) (adjClose : Option ℚ) (frequency : Int) :
    Except String BasicBar :=
  if high < low then .error "high < low"
  else if high < open_ then .error "high < open"
  else if high < close then .error "high < close"
  else if low > open_ then .error "low > open"
  else if low > close then .error "low > close"
  else .ok {
    instrument := build_instrument instrument
    dateTime := dateTime
    open_ := open_
    close := close
    high := high
    low := low
    volume := volume
    adjClose := adjClose
    frequency := frequency
    useAdjustedValue := false }

/-- `BasicBar.setUseAdjustedValue` (bar.py lines 203-206): raises when asked
to use adjusted values on a bar with no adjusted close; otherwise returns the
bar with the toggle set. -/
def BasicBar.setUseAdjustedValue (b : BasicBar) (useAdjusted : Bool) :
    Except String BasicBar :=
  if useAdjusted && b.adjClose.isNone then .error "Adjusted close is not available"
  else .ok { b with useAdjustedValue := useAdjusted }

/-- `BasicBar.getOpen` (bar.py lines 214-220): the adjusted branch checks for
a missing adjusted close, then computes `adjClose * open / float(close)` —
Python raises `ZeroDivisionError` when the raw close is 0 (such a bar passes
every constructor check), so a zero raw close is an error here too. -/
def BasicBar.getOpen (b : BasicBar) (adjusted : Bool) : Except String ℚ :=
  if adjusted then
    match b.adjClose with
    | none => .error "Adjusted close is missing"
    | some a =>
      if b.close = 0 then .error "float division by zero"
      else .ok (a * b.open_ / b.close)
  else .ok b.open_

/-- `BasicBar.getHigh` (bar.py lines 222-228), with the same
division-by-zero error path at raw close 0 as `getOpen`. -/
def BasicBar.getHigh (b : BasicBar) (adjusted : Bool) : Except String ℚ :=
  if adjusted then
    match b.adjClose with
    | none => .error "Adjusted close is missing"
    | some a =>
      if b.close = 0 then .error "float division by zero"
      else .ok (a * b.high / b.close)
  else .ok b.high

/-- `BasicBar.getLow` (bar.py lines 230-236), with the same
division-by-zero error path at raw close 0 as `getOpen`. -/
def BasicBar.getLow (b : BasicBar) (adjusted : Bool) : Except String ℚ :=
  if adjusted then
    match b.adjClose with
    | none => .error "Adjusted close is missing"
    | some a =>
      if b.close = 0 then .error "float division by zero"
      else .ok (a * b.low / b.close)
  else .ok b.low

/-- `BasicBar.getClose` (bar.py lines 238-244). -/
def BasicBar.getClose (b : BasicBar) (adjusted : Bool) : Except String ℚ :=
  if adjusted then
    match b.adjClose with
    | none => .error "Adjusted close is missing"
    | some a => .ok a
  else .ok b.close

/-- `BasicBar.getAdjClose` (bar.py lines 249-250). -/
def BasicBar.getAdjClose (b : BasicBar) : Option ℚ := b.adjClose

/-- `BasicBar.getPrice` (bar.py lines 255-259): the adjusted close when the
toggle is set, the raw close otherwise. The Python value may be `None` (only
reachable when the toggle was forced past `setUseAdjustedValue`), hence the
`Option`. -/
def BasicBar.getPrice (b : BasicBar) : Option ℚ :=
  if b.useAdjustedValue then b.adjClose else some b.close

/-- `Bar.getTypicalPrice` (bar.py lines 116-118), as inherited by `BasicBar`:
`(self.getHigh() + self.getLow() + self.getClose()) / 3.0`, each getter called
with its default `adjusted=False`. -/
def BasicBar.getTypicalPrice (b : BasicBar) : Except String ℚ := do
  let h ← b.getHigh false
  let l ← b.getLow false
  let c ← b.getClose false
  pure ((h + l + c) / 3)

/-! ### Python dicts as insertion-ordered association lists -/

/-- Lookup in an insertion-ordered dict: the first entry with the key. -/
def dictGet {α : Type} : List (Instrument × α) → Instrument → Option α
  | [], _ => none
  | p :: rest, k => if p.1 = k then some p.2 else dictGet rest k

/-- `d[k] = v` on an insertion-ordered dict: replace the entry holding the
key in place, or append a new entry. -/
def dictSet {α : Type} : List (Instrument × α) → Instrument → α → List (Instrument × α)
  | [], k, v => [(k, v)]
  | p :: rest, k, v => if p.1 = k then (k, v) :: rest else p :: dictSet rest k v

/-- `Bars` (bar.py lines 265-345): the per-instrument dict together with the
shared datetime. -/
structure Bars where
  barDict : List (Instrument × BasicBar)
  dateTime : DateTime
deriving DecidableEq, Repr

/-- The loop of `Bars.__init__` (bar.py lines 288-302): for each bar, raise if
its datetime differs from the first bar's, raise (assert) if its instrument is
already in the dict, then insert it. -/
def barsBuildLoop : List BasicBar → DateTime → List (Instrument × BasicBar) →
    Except String (List (Instrument × BasicBar))
  | [], _, acc => .ok acc
  | b :: rest, fdt, acc =>
    if b.dateTime ≠ fdt then .error "Bar data times are not in sync"
    else if (dictGet acc b.instrument).isSome then .error "Duplicate bars"
    else barsBuildLoop rest fdt (acc ++ [(b.instrument, b)])

/-- `Bars.__init__` (bar.py lines 277-304): raises on an empty list, otherwise
runs the loop with the first bar's datetime as the reference and records it as
the group's datetime. -/
def Bars.init : List BasicBar → Except String Bars
  | [] => .error "No bars supplied"
  | first :: rest => do
    let dict ← barsBuildLoop (first :: rest) first.dateTime []
    .ok { barDict := dict, dateTime := first.dateTime }

/-- `Bars.getDateTime` (bar.py lines 329-331). -/
def Bars.getDateTime (g : Bars) : DateTime := g.dateTime

/-- `Bars.getBar` (bar.py lines 333-338): the bar for the instrument, or
`none`. -/
def Bars.getBar (g : Bars) (instrument : Instrument) : Option BasicBar :=
  dictGet g.barDict (build_instrument instrument)

/-! ### BaseBarFeed (barfeed/__init__.py) -/

/-- Modelled from the spec: `pyalgotrade/dataseries/bards.py` is not among the
source files. The spec only requires that each live per-instrument data series
carries the adjusted-values setting the feed propagates to it, so the
embedding keeps the instrument and that flag. -/
structure BarDataSeries where
  instrument : Instrument
  useAdjustedValues : Bool
deriving DecidableEq, Repr

/-- `BarDataSeries.setUseAdjustedValues`. Modelled from the spec: records the
propagated setting on the data series. -/
def BarDataSeries.setUseAdjustedValues (ds : BarDataSeries) (useAdjusted : Bool) :
    BarDataSeries :=
  { ds with useAdjustedValues := useAdjusted }

/-- The state of `BaseBarFeed` (barfeed/__init__.py lines 47-54) together
with the data-series registry it inherits from `feed.BaseFeed` (that module is
not among the source files; the registry is modelled from the spec as the
set of live per-instrument data series the feed propagates settings to). -/
structure BaseBarFeed where
  frequency : Int
  useAdjustedValues : Bool
  lastBars : Option Bars
  lastBarByInstrument : List (Instrument × BasicBar)
  dataSeries : List (Instrument × BarDataSeries)
deriving DecidableEq, Repr

/-- `BaseBarFeed.__init__` (barfeed/__init__.py lines 47-54). -/
def BaseBarFeed.init (frequency : Int) : BaseBarFeed :=
  { frequency := frequency
    useAdjustedValues := false
    lastBars := none
    lastBarByInstrument := []
    dataSeries := [] }

/-- `BaseBarFeed.createDataSeries` (barfeed/__init__.py lines 77-81): a fresh
`BarDataSeries` for the key, created with the feed's current adjusted-values
setting. -/
def BaseBarFeed.createDataSeries (f : BaseBarFeed) (key : Instrument) : BarDataSeries :=
  (BarDataSeries.mk key false).setUseAdjustedValues f.useAdjustedValues

/-- `feed.BaseFeed.registerDataSeries`. Modelled from the spec: registers the
key in the feed's data-series registry, creating the series through
`createDataSeries` when the key is new. -/
def BaseBarFeed.registerDataSeries (f : BaseBarFeed) (key : Instrument) : BaseBarFeed :=
  match dictGet f.dataSeries key with
  | some _ => f
  | none => { f with dataSeries := f.dataSeries ++ [(key, f.createDataSeries key)] }

/-- `BaseBarFeed.setUseAdjustedValues` (barfeed/__init__.py lines 102-109),
with `barsHaveAdjClose` — an abstract method of the Python class — passed as
an argument: raises when adjusted values are requested but unsupported,
otherwise records the setting and propagates it to every registered data
series. -/
def BaseBarFeed.setUseAdjustedValues (f : BaseBarFeed) (useAdjusted : Bool)
    (barsHaveAdjClose : Bool) : Except String BaseBarFeed :=
  if useAdjusted && !barsHaveAdjClose then
    .error "The barfeed doesn't support adjusted close values"
  else
    .ok { f with
      useAdjustedValues := useAdjusted
      dataSeries := f.dataSeries.map fun p => (p.1, p.2.setUseAdjustedValues useAdjusted) }

/-- `BaseBarFeed.isIntraday` (barfeed/__init__.py lines 114-115). -/
def BaseBarFeed.isIntraday (f : BaseBarFeed) : Bool :=
  decide (f.frequency < Frequency.DAY)

/-- `BaseBarFeed.getCurrentBars` (barfeed/__init__.py lines 117-119). -/
def BaseBarFeed.getCurrentBars (f : BaseBarFeed) : Option Bars := f.lastBars

/-- `BaseBarFeed.getLastBar` (barfeed/__init__.py lines 121-130). -/
def BaseBarFeed.getLastBar (f : BaseBarFeed) (instrument : Instrument) : Option BasicBar :=
  dictGet f.lastBarByInstrument (build_instrument instrument)

/-- The loop of `_getNextValues` (barfeed/__init__.py lines 90-91): for each
bar of the group, `lastBarByInstrument[bar.getInstrument()] = bar`. -/
def updateLastBars (d : List (Instrument × BasicBar)) :
    List (Instrument × BasicBar) → List (Instrument × BasicBar)
  | [] => d
  | p :: rest => updateLastBars (dictSet d p.2.instrument p.2) rest

/-- `BaseBarFeed._getNextValues` (barfeed/__init__.py lines 83-94), with the
result of the abstract `getNextBars` passed as an argument: on a group,
returns its datetime with the group and updates the last-bar cache and the
current `Bars`; on `none`, returns `(none, none)` leaving the feed as it
was. -/
def BaseBarFeed.getNextValues (f : BaseBarFeed) (bars : Option Bars) :
    (Option DateTime × Option Bars) × BaseBarFeed :=
  match bars with
  | none => ((none, none), f)
  | some bs =>
    ((some bs.getDateTime, some bs),
     { f with
        lastBarByInstrument := updateLastBars f.lastBarByInstrument bs.barDict
        lastBars := some bs })

/-! ### OptimizerBarFeed (barfeed/__init__.py lines 151-203) -/

/-- The adjusted-close probe of `OptimizerBarFeed.__init__` (barfeed/
__init__.py lines 161-167): both loops break after their first iteration, so
only the first bar of the first group is ever examined. -/
def probeBarsHaveAdjClose : List Bars → Bool
  | [] => false
  | g :: _ =>
    match g.barDict with
    | [] => false
    | p :: _ => p.2.getAdjClose.isSome

/-- The state of `OptimizerBarFeed` (barfeed/__init__.py lines 152-167). -/
structure OptimizerBarFeed where
  base : BaseBarFeed
  bars : List Bars
  nextPos : Nat
  currDateTime : Option DateTime
  haveAdjClose : Bool
deriving DecidableEq, Repr

/-- `OptimizerBarFeed.__init__` (barfeed/__init__.py lines 152-167). -/
def OptimizerBarFeed.init (frequency : Int) (instruments : List Instrument)
    (bars : List Bars) : OptimizerBarFeed :=
  { base := instruments.foldl
      (fun f i => f.registerDataSeries (build_instrument i)) (BaseBarFeed.init frequency)
    bars := bars
    nextPos := 0
    currDateTime := none
    haveAdjClose := probeBarsHaveAdjClose bars }

/-- `OptimizerBarFeed.barsHaveAdjClose` (barfeed/__init__.py lines 193-194). -/
def OptimizerBarFeed.barsHaveAdjClose (f : OptimizerBarFeed) : Bool :=
  f.haveAdjClose

/-- `OptimizerBarFeed.eof` (barfeed/__init__.py lines 179-180). -/
def OptimizerBarFeed.eof (f : OptimizerBarFeed) : Bool :=
  decide (f.nextPos ≥ f.bars.length)

/-- `OptimizerBarFeed.getNextBars` (barfeed/__init__.py lines 196-202). -/
def OptimizerBarFeed.getNextBars (f : OptimizerBarFeed) : Option Bars × OptimizerBarFeed :=
  match f.bars[f.nextPos]? with
  | none => (none, f)
  | some g => (some g, { f with currDateTime := some g.getDateTime, nextPos := f.nextPos + 1 })

/-! ### The dispatch ordering check

Modelled from the spec: the Dispatcher (`pyalgotrade/dispatcher.py`) and the
per-series ordering check it triggers through `feed.BaseFeed.dispatch` and the
data-series append (`pyalgotrade/dataseries`) are not among the source files.
Per spec section 4.3 a subject's successively dispatched timestamps must be
strictly increasing, the violation aborting the run with an error naming the
offender; per section 8 (and the repository tests, which accept duplicate
timestamps for TRADE-frequency bars with the error message
"<instrument> bars are not in order"), events of `Frequency.TRADE` are exempt
from strictness: a repeated timestamp remains a distinct dispatched event.
An event is embedded as its (timestamp, frequency) pair. -/

/-- One dispatch step of a subject: check the event's timestamp against the
previously dispatched one (strictly later; at least as late for
`Frequency.TRADE` events) and dispatch it, or abort naming the subject. -/
def dispatchStep (name : String) (last : Option DateTime) (e : DateTime × Int) :
    Except String DateTime :=
  match last with
  | none => .ok e.1
  | some lastDt =>
    if (if e.2 = Frequency.TRADE then decide (lastDt ≤ e.1) else decide (lastDt < e.1)) then
      .ok e.1
    else .error (name ++ " bars are not in order")

/-- A run of the dispatch loop over one subject's events: dispatch each in
turn, aborting on the first ordering violation; on success the list of
dispatched timestamps, in order. -/
def dispatchRun (name : String) : Option DateTime → List (DateTime × Int) →
    Except String (List DateTime)
  | _, [] => .ok []
  | last, e :: rest => do
    let dt ← dispatchStep name last e
    let dts ← dispatchRun name (some dt) rest
    pure (dt :: dts)

/-- The spec-side ordering predicate: each event's timestamp strictly later
than the previous one, except that a `Frequency.TRADE` event may repeat the
previous timestamp. -/
def eventsInOrder : Option DateTime → List (DateTime × Int) → Bool
  | _, [] => true
  | none, e :: rest => eventsInOrder (some e.1) rest
  | some last, e :: rest =>
    (if e.2 = Frequency.TRADE then decide (last ≤ e.1) else decide (last < e.1))
      && eventsInOrder (some e.1) rest

/-! ### Dictionary lemmas -/

theorem dictGet_set_self {α : Type} (d : List (Instrument × α)) (k : Instrument) (v : α) :
    dictGet (dictSet d k v) k = some v := by
  induction d with
  | nil => simp [dictSet, dictGet]
  | cons p rest ih => by_cases h : p.1 = k <;> simp [dictSet, dictGet, h, ih]

theorem dictGet_set_other {α : Type} (d : List (Instrument × α)) (k : Instrument) (v : α)
    (i : Instrument) (h : ¬k = i) : dictGet (dictSet d k v) i = dictGet d i := by
  induction d with
  | nil => simp [dictSet, dictGet, h]
  | cons p rest ih => by_cases hp : p.1 = k <;> simp [dictSet, dictGet, hp, h, ih]

theorem dictGet_eq_none_of_keys_ne {α : Type} (l : List (Instrument × α)) (i : Instrument)
    (h : ∀ q ∈ l, ¬q.1 = i) : dictGet l i = none := by
  induction l with
  | nil => rfl
  | cons p rest ih =>
    simp only [dictGet, if_neg (h p (by simp))]
    exact ih fun q hq => h q (by simp [hq])

theorem dictGet_append {α : Type} (l1 l2 : List (Instrument × α)) (i : Instrument) :
    dictGet (l1 ++ l2) i = (dictGet l1 i).elim (dictGet l2 i) some := by
  induction l1 with
  | nil => rfl
  | cons p rest ih => by_cases h : p.1 = i <;> simp [dictGet, h, ih]

/-! ### The claims -/

/-- C1: for every OHLC quadruple with `low ≤ open ≤ high` and
`low ≤ close ≤ high` (and any instrument, datetime, volume, adjusted close,
frequency), `BasicBar` construction succeeds, and succeeds only for such
quadruples; the constructed bar stores the inputs verbatim (never
sanitized), with the adjusted-value toggle cleared. -/
theorem claim_C1_basicbar_ohlc_validation (instrument : Instrument) (dateTime : DateTime)
    (open_ high low close volume : ℚ) (adjClose : Option ℚ) (frequency : Int) :
    (isOkE (BasicBar.init instrument dateTime open_ high low close volume adjClose frequency)
        = true
      ↔ low ≤ open_ ∧ open_ ≤ high ∧ low ≤ close ∧ close ≤ high)
    ∧ ∀ b, BasicBar.init instrument dateTime open_ high low close volume adjClose frequency
          = .ok b →
        b.instrument = instrument ∧ b.dateTime = dateTime ∧ b.open_ = open_
          ∧ b.high = high ∧ b.low = low ∧ b.close = close ∧ b.volume = volume
          ∧ b.adjClose = adjClose ∧ b.frequency = frequency
          ∧ b.useAdjustedValue = false := by
  unfold BasicBar.init build_instrument
  split_ifs with h1 h2 h3 h4 h5
  · exact ⟨⟨fun h => Bool.noConfusion h,
      fun hc => absurd h1 (not_lt.mpr (le_trans hc.1 hc.2.1))⟩,
      fun b hb => hb.elim⟩
  · exact ⟨⟨fun h => Bool.noConfusion h,
      fun hc => absurd h2 (not_lt.mpr hc.2.1)⟩,
      fun b hb => hb.elim⟩
  · exact ⟨⟨fun h => Bool.noConfusion h,
      fun hc => absurd h3 (not_lt.mpr hc.2.2.2)⟩,
      fun b hb => hb.elim⟩
  · exact ⟨⟨fun h => Bool.noConfusion h,
      fun hc => absurd h4 (not_lt.mpr hc.1)⟩,
      fun b hb => hb.elim⟩
  · exact ⟨⟨fun h => Bool.noConfusion h,
      fun hc => absurd h5 (not_lt.mpr hc.2.2.1)⟩,
      fun b hb => hb.elim⟩
  · refine ⟨⟨fun _ => ⟨not_lt.mp h4, not_lt.mp h2, not_lt.mp h5, not_lt.mp h3⟩,
      fun _ => rfl⟩, ?_⟩
    intro b hb
    cases Except.ok.inj hb
    exact ⟨rfl, rfl, rfl, rfl, rfl, rfl, rfl, rfl, rfl, rfl⟩

/-- C4 (amended): for every `BasicBar` with a non-null adjusted close `a` and
non-zero raw close `c`, the adjusted open, high and low are exactly
`rawField * a / c`; with a null adjusted close each of the three adjusted
getters raises, and with a zero raw close each raises as well
(Python's `ZeroDivisionError`). -/
theorem claim_C4_adjusted_ohlc (b : BasicBar) :
    (∀ a : ℚ, b.adjClose = some a → ¬b.close = 0 →
      b.getOpen true = .ok (b.open_ * a / b.close)
      ∧ b.getHigh true = .ok (b.high * a / b.close)
      ∧ b.getLow true = .ok (b.low * a / b.close))
    ∧ (b.adjClose = none →
      isOkE (b.getOpen true) = false
      ∧ isOkE (b.getHigh true) = false
      ∧ isOkE (b.getLow true) = false)
    ∧ (∀ a : ℚ, b.adjClose = some a → b.close = 0 →
      isOkE (b.getOpen true) = false
      ∧ isOkE (b.getHigh true) = false
      ∧ isOkE (b.getLow true) = false) := by
  refine ⟨?_, ?_, ?_⟩
  · intro a ha hc
    simp [BasicBar.getOpen, BasicBar.getHigh, BasicBar.getLow, ha, hc, mul_comm]
  · intro ha
    simp [BasicBar.getOpen, BasicBar.getHigh, BasicBar.getLow, ha, isOkE]
  · intro a ha hc
    simp [BasicBar.getOpen, BasicBar.getHigh, BasicBar.getLow, ha, hc, isOkE]

/-- C7: `getPrice` returns the adjusted close when the per-bar toggle is set
and the raw close otherwise; `setUseAdjustedValue true` raises when the bar
has no adjusted close; a successful `setUseAdjustedValue` changes the toggle
and nothing else. -/
theorem claim_C7_price_and_toggle (b : BasicBar) (u : Bool) :
    (b.useAdjustedValue = true → b.getPrice = b.adjClose)
    ∧ (b.useAdjustedValue = false → b.getPrice = some b.close)
    ∧ (b.adjClose = none → isOkE (b.setUseAdjustedValue true) = false)
    ∧ (∀ b', b.setUseAdjustedValue u = .ok b' →
        b'.useAdjustedValue = u
        ∧ b'.instrument = b.instrument ∧ b'.dateTime = b.dateTime
        ∧ b'.open_ = b.open_ ∧ b'.high = b.high ∧ b'.low = b.low ∧ b'.close = b.close
        ∧ b'.volume = b.volume ∧ b'.adjClose = b.adjClose
        ∧ b'.frequency = b.frequency) := by
  refine ⟨fun h => by simp [BasicBar.getPrice, h], fun h => by simp [BasicBar.getPrice, h],
    fun h => by simp [BasicBar.setUseAdjustedValue, h, isOkE], fun b' h => ?_⟩
  unfold BasicBar.setUseAdjustedValue at h
  split_ifs at h
  cases h
  simp

/-- C8: the `Frequency` constants are strictly increasing from `TRADE`
(negative) to `MONTH`, and a `BaseBarFeed` is intraday exactly when its
frequency is strictly below `Frequency.DAY` — so exactly for `TRADE`,
`SECOND`, `MINUTE` and `HOUR` among the constants. -/
theorem claim_C8_frequency_order_intraday (f : BaseBarFeed) :
    (Frequency.TRADE < Frequency.SECOND ∧ Frequency.SECOND < Frequency.MINUTE
      ∧ Frequency.MINUTE < Frequency.HOUR ∧ Frequency.HOUR < Frequency.DAY
      ∧ Frequency.DAY < Frequency.WEEK ∧ Frequency.WEEK < Frequency.MONTH
      ∧ Frequency.TRADE < 0)
    ∧ (f.isIntraday = true ↔ f.frequency < Frequency.DAY)
    ∧ (f.frequency = Frequency.TRADE ∨ f.frequency = Frequency.SECOND
        ∨ f.frequency = Frequency.MINUTE ∨ f.frequency = Frequency.HOUR →
        f.isIntraday = true)
    ∧ (f.frequency = Frequency.DAY ∨ f.frequency = Frequency.WEEK
        ∨ f.frequency = Frequency.MONTH → f.isIntraday = false) := by
  refine ⟨by decide, by simp [BaseBarFeed.isIntraday], ?_, ?_⟩
  · rintro (h | h | h | h) <;> simp only [BaseBarFeed.isIntraday, h] <;> decide
  · rintro (h | h | h) <;> simp only [BaseBarFeed.isIntraday, h] <;> decide

/-- C9: `getTypicalPrice` is `(high + low + close) / 3` over the raw fields,
whatever the value of the per-bar adjusted-value toggle (the toggle never
enters the computation; it affects `getPrice` only, per C7). -/
theorem claim_C9_typical_price_raw (b : BasicBar) (u : Bool) :
    ({ b with useAdjustedValue := u } : BasicBar).getTypicalPrice
      = .ok ((b.high + b.low + b.close) / 3)
    ∧ b.getTypicalPrice = .ok ((b.high + b.low + b.close) / 3) := by
  constructor <;> rfl

/-- C10: `OptimizerBarFeed.barsHaveAdjClose` is decided at construction by
the first bar of the first `Bars` group alone: `false` on an empty feed,
`false` when the first group is empty, and equal to the presence of the
first group's first bar's adjusted close otherwise — for every tail of later
bars and later groups. -/
theorem claim_C10_optimizer_adjclose_probe (frequency : Int)
    (instruments : List Instrument) (bars : List Bars) :
    (bars = [] →
      (OptimizerBarFeed.init frequency instruments bars).barsHaveAdjClose = false)
    ∧ ∀ g rest, bars = g :: rest →
        (g.barDict = [] →
          (OptimizerBarFeed.init frequency instruments bars).barsHaveAdjClose = false)
        ∧ ∀ p ps, g.barDict = p :: ps →
            (OptimizerBarFeed.init frequency instruments bars).barsHaveAdjClose
              = p.2.getAdjClose.isSome := by
  constructor
  · intro h
    simp [h, OptimizerBarFeed.init, OptimizerBarFeed.barsHaveAdjClose,
      probeBarsHaveAdjClose]
  · intro g rest hbars
    constructor
    · intro hdict
      simp [hbars, hdict, OptimizerBarFeed.init, OptimizerBarFeed.barsHaveAdjClose,
        probeBarsHaveAdjClose]
    · intro p ps hdict
      simp [hbars, hdict, OptimizerBarFeed.init, OptimizerBarFeed.barsHaveAdjClose,
        probeBarsHaveAdjClose]

/-- C5: with `barsHaveAdjClose` false, `setUseAdjustedValues true` raises (the
feed, embedded functionally, is unchanged since no new feed is produced); with
`barsHaveAdjClose` true, `setUseAdjustedValues u` succeeds for either `u`,
records the setting, propagates it to every registered data series (whose
keys it leaves as they were, as it does every other field), and every data
series created afterwards through `createDataSeries` carries the setting. -/
theorem claim_C5_set_use_adjusted_values (f : BaseBarFeed) (u hac : Bool) :
    (hac = false → isOkE (f.setUseAdjustedValues true hac) = false)
    ∧ (hac = true → ∃ f', f.setUseAdjustedValues u hac = .ok f'
        ∧ f'.useAdjustedValues = u
        ∧ (∀ p ∈ f'.dataSeries, p.2.useAdjustedValues = u)
        ∧ (∀ key, (f'.createDataSeries key).useAdjustedValues = u)
        ∧ f'.frequency = f.frequency ∧ f'.lastBars = f.lastBars
        ∧ f'.lastBarByInstrument = f.lastBarByInstrument
        ∧ (f'.dataSeries.map fun p => p.1) = f.dataSeries.map fun p => p.1) := by
  constructor
  · intro h
    simp [h, BaseBarFeed.setUseAdjustedValues, isOkE]
  · intro h
    refine ⟨{ f with
        useAdjustedValues := u
        dataSeries := f.dataSeries.map (fun p => (p.1, p.2.setUseAdjustedValues u)) },
      by simp [h, BaseBarFeed.setUseAdjustedValues], rfl, ?_, fun key => rfl,
      rfl, rfl, rfl, by simp⟩
    intro p hp
    simp only [List.mem_map] at hp
    obtain ⟨q, _, hq⟩ := hp
    cases hq
    rfl

/-- A single-entry dict appended on the right misses a key exactly when the
original dict misses it and the appended key differs. -/
theorem dictGet_append_single {α : Type} (l : List (Instrument × α)) (j : Instrument)
    (v : α) (k : Instrument) :
    (dictGet (l ++ [(j, v)]) k = none) ↔ dictGet l k = none ∧ ¬j = k := by
  rw [dictGet_append]
  cases h : dictGet l k
  · simp only [Option.elim, dictGet]
    split_ifs with hj
    · simp [hj]
    · simp [hj]
  · simp [Option.elim]

/-- All bars of a non-empty list share the first bar's datetime exactly when
all pairs of bars share a datetime. -/
theorem forall_dt_shared (first : BasicBar) (rest : List BasicBar) :
    (∀ b ∈ first :: rest, b.dateTime = first.dateTime) ↔
      ∀ a ∈ first :: rest, ∀ c ∈ first :: rest, a.dateTime = c.dateTime := by
  constructor
  · intro h a ha c hc
    rw [h a ha, h c hc]
  · intro h b hb
    exact h b hb first (by simp)

/-- The loop of `Bars.__init__` succeeds exactly when every remaining bar
matches the reference datetime, no remaining bar's instrument is already in
the accumulated dict, and the remaining instruments are pairwise distinct. -/
theorem barsBuildLoop_ok :
    ∀ (bars : List BasicBar) (fdt : DateTime) (acc : List (Instrument × BasicBar)),
      isOkE (barsBuildLoop bars fdt acc) = true ↔
        (∀ b ∈ bars, b.dateTime = fdt)
        ∧ (∀ b ∈ bars, dictGet acc b.instrument = none)
        ∧ bars.Pairwise (fun a c => ¬a.instrument = c.instrument) := by
  intro bars
  induction bars with
  | nil => intro fdt acc; simp [barsBuildLoop, isOkE]
  | cons b rest ih =>
    intro fdt acc
    rw [barsBuildLoop]
    by_cases hdt : b.dateTime = fdt
    · by_cases hdup : dictGet acc b.instrument = none
      · rw [if_neg (by simp [hdt]), if_neg (by simp [hdup]), ih]
        simp only [List.forall_mem_cons, List.pairwise_cons, dictGet_append_single]
        constructor
        · rintro ⟨hdts, hmiss, hpw⟩
          exact ⟨⟨hdt, hdts⟩, ⟨hdup, fun c hc => (hmiss c hc).1⟩,
            fun c hc => (hmiss c hc).2, hpw⟩
        · rintro ⟨⟨-, hdts⟩, ⟨-, hmiss⟩, hne, hpw⟩
          exact ⟨hdts, fun c hc => ⟨hmiss c hc, hne c hc⟩, hpw⟩
      · rw [if_neg (by simp [hdt]), if_pos (by simpa [Option.isSome_iff_ne_none] using hdup)]
        simp only [isOkE, List.forall_mem_cons]
        constructor
        · intro h
          exact Bool.noConfusion h
        · rintro ⟨-, ⟨hmiss, -⟩, -⟩
          exact absurd hmiss hdup
    · rw [if_pos (by simp [hdt])]
      simp only [isOkE, List.forall_mem_cons]
      constructor
      · intro h
        exact Bool.noConfusion h
      · rintro ⟨⟨hb, -⟩, -⟩
        exact absurd hb hdt

/-- C2: `Bars` construction fails exactly when the list is empty, two bars
disagree on the datetime, or an instrument repeats; on a non-empty list of
pairwise-distinct instruments sharing one datetime it succeeds, and
`getDateTime` of the result is that shared datetime (the datetime of each
input bar). -/
theorem claim_C2_bars_construction (bars : List BasicBar) :
    (isOkE (Bars.init bars) = true ↔
      ¬bars = []
      ∧ (∀ a ∈ bars, ∀ c ∈ bars, a.dateTime = c.dateTime)
      ∧ bars.Pairwise (fun a c => ¬a.instrument = c.instrument))
    ∧ ∀ g, Bars.init bars = .ok g → ∀ b ∈ bars, g.getDateTime = b.dateTime := by
  constructor
  · cases bars with
    | nil => simp [Bars.init, isOkE]
    | cons first rest =>
      have hstep : isOkE (Bars.init (first :: rest))
          = isOkE (barsBuildLoop (first :: rest) first.dateTime []) := by
        simp only [Bars.init]
        cases barsBuildLoop (first :: rest) first.dateTime [] <;> rfl
      rw [hstep, barsBuildLoop_ok]
      constructor
      · rintro ⟨hdts, -, hpw⟩
        exact ⟨by simp, (forall_dt_shared first rest).mp hdts, hpw⟩
      · rintro ⟨-, hdts, hpw⟩
        refine ⟨(forall_dt_shared first rest).mpr hdts, ?_, hpw⟩
        intro c hc
        rfl
  · intro g hg b hb
    cases bars with
    | nil => exact Except.noConfusion hg
    | cons first rest =>
      simp only [Bars.init] at hg
      cases hloop : barsBuildLoop (first :: rest) first.dateTime [] with
      | error e =>
        rw [hloop] at hg
        exact Except.noConfusion hg
      | ok dict =>
        rw [hloop] at hg
        have hg2 : ({ barDict := dict, dateTime := first.dateTime } : Bars) = g :=
          Except.ok.inj hg
        have hok := (barsBuildLoop_ok (first :: rest) first.dateTime []).mp
          (by rw [hloop]; rfl)
        rw [← hg2]
        exact (hok.1 b hb).symm

/-- Replaying a group's entries into the last-bar cache: a key carried by the
group ends at the group's (unique) bar for it; any other key keeps its old
binding. The group's entries must be keyed by their bar's instrument and have
pairwise-distinct keys, as `Bars` construction guarantees. -/
theorem updateLastBars_get :
    ∀ (entries d : List (Instrument × BasicBar)) (i : Instrument),
      (∀ p ∈ entries, p.1 = p.2.instrument) →
      entries.Pairwise (fun p q => ¬p.1 = q.1) →
      dictGet (updateLastBars d entries) i = (dictGet entries i).elim (dictGet d i) some := by
  intro entries
  induction entries with
  | nil => intro d i _ _; rfl
  | cons p rest ih =>
    intro d i hk hnd
    have hp : p.1 = p.2.instrument := hk p (by simp)
    rw [updateLastBars, ih (dictSet d p.2.instrument p.2) i
      (fun q hq => hk q (by simp [hq])) (List.Pairwise.sublist (by simp) hnd)]
    by_cases hpi : p.1 = i
    · have hrest : dictGet rest i = none := by
        refine dictGet_eq_none_of_keys_ne rest i fun q hq hqi => ?_
        exact (List.pairwise_cons.mp hnd).1 q hq (hpi.trans hqi.symm)
      have hset : dictGet (dictSet d p.2.instrument p.2) i = some p.2 := by
        rw [← hp, hpi]
        exact dictGet_set_self d i p.2
      rw [hrest, hset]
      simp [dictGet, if_pos hpi, Option.elim]
    · simp only [dictGet, if_neg hpi]
      cases hr : dictGet rest i
      · simp only [Option.elim]
        exact dictGet_set_other d p.2.instrument p.2 i (by rw [← hp]; exact hpi)
      · simp [Option.elim]

/-- C6: one advance step of a `BaseBarFeed`. When `getNextBars` yields a
group, the step returns the group's datetime with the group, the group
becomes the current `Bars`, the last-bar cache maps every instrument of the
group to the group's bar for it while absent instruments keep their previous
last bar, and the remaining fields are untouched; when `getNextBars` yields
`none`, the step returns `(none, none)` and leaves the feed exactly as it
was. The hypothesis is the invariant `Bars` construction guarantees: entries
keyed by their bar's instrument, keys pairwise distinct. -/
theorem claim_C6_advance_step (f : BaseBarFeed) (nb : Option Bars)
    (hwf : ∀ g, nb = some g → (∀ p ∈ g.barDict, p.1 = p.2.instrument)
        ∧ g.barDict.Pairwise (fun p q => ¬p.1 = q.1)) :
    (nb = none → f.getNextValues none = ((none, none), f))
    ∧ ∀ g, nb = some g →
        (f.getNextValues nb).1 = (some g.getDateTime, some g)
        ∧ (f.getNextValues nb).2.getCurrentBars = some g
        ∧ (∀ i b, g.getBar i = some b → (f.getNextValues nb).2.getLastBar i = some b)
        ∧ (∀ i, g.getBar i = none → (f.getNextValues nb).2.getLastBar i = f.getLastBar i)
        ∧ (f.getNextValues nb).2.frequency = f.frequency
        ∧ (f.getNextValues nb).2.useAdjustedValues = f.useAdjustedValues
        ∧ (f.getNextValues nb).2.dataSeries = f.dataSeries := by
  refine ⟨fun _ => rfl, fun g hgnb => ?_⟩
  obtain ⟨hk, hnd⟩ := hwf g hgnb
  subst hgnb
  refine ⟨rfl, rfl, ?_, ?_, rfl, rfl, rfl⟩
  · intro i b hib
    have := updateLastBars_get g.barDict f.lastBarByInstrument i hk hnd
    simp only [BaseBarFeed.getNextValues, BaseBarFeed.getLastBar, build_instrument, this]
    unfold Bars.getBar build_instrument at hib
    rw [hib]
    rfl
  · intro i hib
    have := updateLastBars_get g.barDict f.lastBarByInstrument i hk hnd
    simp only [BaseBarFeed.getNextValues, BaseBarFeed.getLastBar, build_instrument, this]
    unfold Bars.getBar build_instrument at hib
    rw [hib]
    rfl

/-- A concrete instrument for the closed witnesses. -/
def exInstrument : Instrument := { quoteSymbol := "ORCL", priceCurrency := "USD" }

/-- A concrete valid bar for the closed witnesses. -/
def exBar : BasicBar :=
  { instrument := exInstrument
    dateTime := 1
    open_ := 10
    close := 11
    high := 12
    low := 9
    volume := 100
    adjClose := some 5
    frequency := Frequency.DAY
    useAdjustedValue := false }

/-- A concrete one-bar group for the closed witnesses. -/
def exGroup : Bars := { barDict := [(exInstrument, exBar)], dateTime := 1 }

/-- C6 witness: advancing a fresh daily feed over the one-bar group caches
that bar as the instrument's last bar. -/
theorem claim_C6_advance_step_witness :
    (((BaseBarFeed.init Frequency.DAY).getNextValues (some exGroup)).2.getLastBar
        exInstrument) = some exBar :=
  ((claim_C6_advance_step (BaseBarFeed.init Frequency.DAY) (some exGroup)
      (by intro g hg; cases hg; exact ⟨by simp [exGroup, exBar], by simp [exGroup]⟩)).2
    exGroup rfl).2.2.1 exInstrument exBar (by rfl)

/-- Post-composing an `Except` computation with a pure function preserves
success. -/
theorem isOkE_bind_pure {ε α β : Type} (m : Except ε α) (g : α → β) :
    isOkE (do let x ← m; pure (g x)) = isOkE m := by
  cases m <;> rfl

/-- A dispatch run succeeds exactly when the subject's events are in order:
each strictly later than the previous, `Frequency.TRADE` events allowed to
repeat the previous timestamp. -/
theorem dispatchRun_isOk (name : String) :
    ∀ (events : List (DateTime × Int)) (last : Option DateTime),
      isOkE (dispatchRun name last events) = eventsInOrder last events := by
  intro events
  induction events with
  | nil => intro last; cases last <;> rfl
  | cons e rest ih =>
    intro last
    cases last with
    | none =>
      rw [dispatchRun, eventsInOrder]
      have hstep : dispatchStep name none e = .ok e.1 := rfl
      rw [hstep]
      show isOkE (do
        let dts ← dispatchRun name (some e.1) rest
        pure (e.1 :: dts)) = eventsInOrder (some e.1) rest
      rw [isOkE_bind_pure]
      exact ih (some e.1)
    | some lastDt =>
      rw [dispatchRun, eventsInOrder]
      by_cases hc : (if e.2 = Frequency.TRADE then decide (lastDt ≤ e.1)
          else decide (lastDt < e.1)) = true
      · have hstep : dispatchStep name (some lastDt) e = .ok e.1 := by
          rw [dispatchStep, if_pos hc]
        rw [hstep, hc, Bool.true_and]
        show isOkE (do
          let dts ← dispatchRun name (some e.1) rest
          pure (e.1 :: dts)) = eventsInOrder (some e.1) rest
        rw [isOkE_bind_pure]
        exact ih (some e.1)
      · have hstep : dispatchStep name (some lastDt) e
            = .error (name ++ " bars are not in order") := by
          rw [dispatchStep, if_neg hc]
        rw [hstep]
        rw [Bool.not_eq_true] at hc
        rw [hc, Bool.false_and]
        rfl

/-- C3 counterexample: a subject emitting two `Frequency.TRADE` events at the
same timestamp is dispatched twice without error — the second event's
timestamp is not later than the first's, yet the run does not abort, so a
repeated timestamp from one subject is not always an ordering violation. -/
theorem claim_C3_trade_equal_timestamps_accepted :
    dispatchRun "ORCL/USD" none [(0, Frequency.TRADE), (0, Frequency.TRADE)] = .ok [0, 0]
    ∧ isOkE (dispatchRun "ORCL/USD" none [(0, Frequency.TRADE), (0, Frequency.TRADE)])
        = true := by
  constructor <;> rfl

/-- C3 (amended): a dispatch run over one subject succeeds exactly when the
subject's successive timestamps are strictly increasing, except that a
`Frequency.TRADE` event may repeat the previous timestamp (such an event is
dispatched as a distinct tick); any other violation — an equal-or-earlier
timestamp at a non-TRADE frequency, or a strictly earlier timestamp at any
frequency — aborts the run with an ordering-violation error naming the
subject. In particular successive ticks [t2, t1] with t1 < t2 abort. -/
theorem claim_C3_dispatch_ordering (name : String) (last : Option DateTime)
    (events : List (DateTime × Int)) :
    (isOkE (dispatchRun name last events) = eventsInOrder last events)
    ∧ (∀ lastDt : DateTime, ∀ e : DateTime × Int, ∀ rest : List (DateTime × Int),
        (if e.2 = Frequency.TRADE then e.1 < lastDt else e.1 ≤ lastDt) →
        dispatchRun name (some lastDt) (e :: rest)
          = .error (name ++ " bars are not in order"))
    ∧ (∀ t1 t2 : DateTime, ∀ freq : Int, t1 < t2 →
        dispatchRun name none [(t2, freq), (t1, freq)]
          = .error (name ++ " bars are not in order")) := by
  refine ⟨dispatchRun_isOk name events last, ?_, ?_⟩
  · intro lastDt e rest hviol
    have hstep : dispatchStep name (some lastDt) e
        = .error (name ++ " bars are not in order") := by
      rw [dispatchStep, if_neg]
      split_ifs at hviol ⊢ with hfreq
      · simpa using hviol
      · simpa using hviol
    rw [dispatchRun, hstep]
    rfl
  · intro t1 t2 freq hlt
    have hstep1 : dispatchStep name none (t2, freq) = .ok t2 := rfl
    have hstep2 : dispatchStep name (some t2) (t1, freq)
        = .error (name ++ " bars are not in order") := by
      rw [dispatchStep, if_neg]
      split_ifs with hfreq
      · simp
        linarith
      · simp
        linarith
    rw [dispatchRun, hstep1]
    show (do
      let dts ← dispatchRun name (some t2) [(t1, freq)]
      pure (t2 :: dts) : Except String (List DateTime))
        = .error (name ++ " bars are not in order")
    rw [dispatchRun, hstep2]
    rfl

/-- A constructible bar with a zero raw close and a non-null adjusted close:
`low = 0 ≤ open = 5 ≤ high = 10` and `low = 0 ≤ close = 0 ≤ high = 10` pass
every constructor check. -/
def exZeroCloseBar : BasicBar :=
  { instrument := exInstrument
    dateTime := 1
    open_ := 5
    close := 0
    high := 10
    low := 0
    volume := 100
    adjClose := some 3
    frequency := Frequency.DAY
    useAdjustedValue := false }

/-- C4 counterexample: the zero-close bar is produced by `BasicBar` construction
and carries adjusted close 3, yet `getOpen true` raises (Python's
`ZeroDivisionError` from `/ float(close)`) instead of returning
`rawField * a / c` — so the adjusted getters do not succeed on every bar with
a non-null adjusted close. -/
theorem claim_C4_zero_close_raises :
    BasicBar.init exInstrument 1 5 10 0 0 100 (some 3) Frequency.DAY = .ok exZeroCloseBar
    ∧ exZeroCloseBar.adjClose = some 3
    ∧ isOkE (exZeroCloseBar.getOpen true) = false
    ∧ isOkE (exZeroCloseBar.getHigh true) = false
    ∧ isOkE (exZeroCloseBar.getLow true) = false := by
  refine ⟨rfl, rfl, rfl, rfl, rfl⟩
